import Mathlib

/-!
# gin-url-shortener: the store and the two handlers of `main.go`

The program keeps one package-level map `urlStore.m : map[string]string`,
guarded by a reader/writer lock, and serves two routes:
`POST /shorten` (`ShortenURL`) and `GET /:shortKey` (`GetOriginalURL`).

The embedding passes the map explicitly.  A lock-delimited region of the
source is one atomic transition on the map.  Go strings are Lean strings.

The handlers call into Go libraries.  What those calls do with the
handlers' data is part of the model: the binding of a decoded JSON value to
the request struct, and the rewriting that `http.Redirect` applies to the
redirect target before it writes the `Location` header.  The three parsers
underneath (`url.ParseRequestURI`, `url.Parse`, the JSON scanner) are
collected in `Library`; every theorem holds for all libraries.
-/

namespace UrlShortener

/-! ## Data model -/

/-- The map `urlStore.m` (`main.go` lines 17-20): string keys, string values,
at most one entry per key.  `entries.length` is Go's `len(urlStore.m)`. -/
abbrev UrlStore := AList (fun _ : String => String)

/-- A JSON value as the decoder sees it when the target is a string field:
`null`, a string, or anything else (number, boolean, array, object). -/
inductive JsonValue where
  | null
  | string (s : String)
  | other
  deriving DecidableEq

/-- The first JSON value of a request body as the decoder sees it when the
target is the request struct: an object with its members in order, `null`,
or anything else (array, string, number, boolean). -/
inductive JsonDocument where
  | object (members : List (String × JsonValue))
  | null
  | other
  deriving DecidableEq

/-- Scan of `getScheme` in `net/url`: letters continue the scheme; digits,
`+`, `-`, `.` continue it except in first position; `:` ends it (an error in
first position); anything else means there is no scheme.  `seen` holds the
characters scanned so far, last first.  Returns the scheme and the rest, or
`none` for the error `missing protocol scheme`. -/
def getSchemeScan (raw : List Char) :
    List Char → List Char → Option (List Char × List Char)
  | [], _ => some ([], raw)
  | c :: cs, seen =>
    if c.isAlpha then getSchemeScan raw cs (c :: seen)
    else if c.isDigit || c = '+' || c = '-' || c = '.' then
      if seen = [] then some ([], raw) else getSchemeScan raw cs (c :: seen)
    else if c = ':' then
      if seen = [] then none else some (seen.reverse, cs)
    else some ([], raw)

/-- The scheme that `url.Parse` finds at the start of a string: the result of
`getScheme` on the text before the first `#`, empty when there is none. -/
def urlScheme (s : String) : String :=
  match getSchemeScan (s.toList.takeWhile (fun c => c != '#'))
      (s.toList.takeWhile (fun c => c != '#')) [] with
  | some (scheme, _) => String.mk scheme
  | none => ""

/-- The parsers underneath the handlers.

* `parseRequestURI s` is `true` exactly when `url.ParseRequestURI(s)` returns
  a nil error.  `parse_empty` records that the parser rejects the empty
  string (`empty url`).
* `firstJSONValue text` is what `json.Decoder` reads from the body text: the
  first JSON value and the text that follows it, or `none` when the text
  does not start with a well-formed JSON value.  The decoder never looks at
  the text that follows.
* `parsesRelative s` is `true` exactly when `url.Parse(s)` returns a nil
  error and a URL whose `Scheme` and `Host` are both empty.
  `relative_no_scheme` records that the `Scheme` of the result is the one
  `getScheme` finds. -/
structure Library where
  parseRequestURI : String → Bool
  parse_empty : parseRequestURI "" = false
  firstJSONValue : String → Option (JsonDocument × String)
  parsesRelative : String → Bool
  relative_no_scheme : ∀ s, parsesRelative s = true → urlScheme s = ""

/-- What a handler makes gin send: the status code, the `gin.H` payload given
to `c.JSON` (empty when `c.JSON` is not called) and the `Location` header
written by `c.Redirect` (`none` when `c.Redirect` is not called). -/
structure Response where
  status : Nat
  json : List (String × String)
  location : Option String
  deriving DecidableEq

/-- The constant `http.StatusOK`. -/
def StatusOK : Nat := 200
/-- The constant `http.StatusMovedPermanently`. -/
def StatusMovedPermanently : Nat := 301
/-- The constant `http.StatusBadRequest`. -/
def StatusBadRequest : Nat := 400
/-- The constant `http.StatusNotFound`. -/
def StatusNotFound : Nat := 404

/-! ## Key generation -/

/-- The verb `%x` of `fmt.Sprintf` on a non-negative `int`: base 16, digits
`0-9a-f`, most significant first, no sign, no `0x`, no padding. -/
def sprintfHex (n : Nat) : String :=
  String.mk (Nat.toDigits 16 n)

/-- Function `generateShortKey` (lines 22-27): under the lock, render the current
number of entries in hexadecimal.  The map is only read. -/
def generateShortKey (m : UrlStore) : String :=
  sprintfHex m.entries.length

/-- The sixteen lower-case hexadecimal digits. -/
def lowerHexDigits : List Char :=
  "0123456789abcdef".toList

/-- Value of a hexadecimal digit character (inverse of `Nat.digitChar` below 16). -/
def hexDigitValue (c : Char) : Nat :=
  if c.isDigit then c.toNat - 48 else c.toNat - 87

/-- Read a most-significant-first digit list back as a number. -/
def readHex (cs : List Char) : Nat :=
  cs.foldl (fun acc c => 16 * acc + hexDigitValue c) 0

/-! ## Validation and binding -/

/-- Function `isValidURL` (lines 30-33): the URL is valid when
`url.ParseRequestURI` returns no error. -/
def isValidURL (lib : Library) (testURL : String) : Bool :=
  lib.parseRequestURI testURL

/-- Name matching of `encoding/json` for the field tagged `json:"url"`: a
member is bound to the field when its name equals `url` exactly or up to
letter case. -/
def matchesURLField (name : String) : Bool :=
  name.toList.map Char.toLower = "url".toList

/-- Decoding of the members of an object into the field `URL`, in order,
starting from the current value `cur`.  A matching member with a string
value sets the field, with `null` leaves it, with any other value is a type
error (`none`).  Members with other names are skipped. -/
def bindMembers : List (String × JsonValue) → String → Option String
  | [], cur => some cur
  | (name, v) :: rest, cur =>
    if matchesURLField name then
      match v with
      | .string s => bindMembers rest s
      | .null => bindMembers rest cur
      | .other => none
    else bindMembers rest cur

/-- The JSON-decoding half of `c.BindJSON(&requestBody)`; `body` is `none`
for a request without body.  The result is `none` when decoding returns an
error, otherwise the field `requestBody.URL` after decoding, which is Go's
zero value `""` when no member was bound to it. -/
def Library.decodeJSON (lib : Library) : Option String → Option String
  | none => none
  | some text =>
    match lib.firstJSONValue text with
    | none => none
    | some (.object members, _) => bindMembers members ""
    | some (.null, _) => some ""
    | some (.other, _) => none

/-- The call `c.BindJSON(&requestBody)` for the struct of lines 36-38: decode the body,
then enforce the tag `binding:"required"` on `URL`, which rejects the zero
value `""`.  `none` is a non-nil error. -/
def BindJSON (lib : Library) (body : Option String) : Option String :=
  match lib.decodeJSON body with
  | none => none
  | some v => if v = "" then none else some v

/-! ## The `Location` header of a redirect -/

/-- Split a path at every `/`. -/
def splitSlash : List Char → List (List Char)
  | [] => [[]]
  | c :: cs =>
    if c = '/' then [] :: splitSlash cs
    else
      match splitSlash cs with
      | [] => [[c]]
      | e :: es => (c :: e) :: es

/-- One element of `path.Clean`; `stack` holds the elements kept so far, last
first.  Empty elements and `.` are dropped; `..` removes the last real
element, and where there is none it is dropped in a rooted path and kept in
a relative one. -/
def cleanStep (rooted : Bool) (stack : List (List Char)) (elem : List Char) :
    List (List Char) :=
  if elem = [] ∨ elem = ['.'] then stack
  else if elem = ['.', '.'] then
    match stack with
    | [] => if rooted then [] else [elem]
    | top :: below =>
      if top = ['.', '.'] then (if rooted then stack else elem :: stack) else below
  else elem :: stack

/-- Function `path.Clean`: the shortest path equivalent to `p` by lexical
processing. -/
def pathClean (p : List Char) : List Char :=
  if p = [] then ['.']
  else
    let rooted := p.head? = some '/'
    let kept := ((splitSlash p).foldl (cleanStep rooted) []).reverse
    if rooted then '/' :: ['/'].intercalate kept
    else if kept = [] then ['.'] else ['/'].intercalate kept

/-- The directory returned by `path.Split`: everything up to and including
the last `/`. -/
def pathSplitDir (p : List Char) : List Char :=
  (p.reverse.dropWhile (fun c => c != '/')).reverse

/-- The bytes of the UTF-8 encoding of a code point. -/
def utf8Bytes (n : Nat) : List Nat :=
  if n < 128 then [n]
  else if n < 2048 then [192 + n / 64, 128 + n % 64]
  else if n < 65536 then [224 + n / 4096, 128 + n / 64 % 64, 128 + n % 64]
  else [240 + n / 262144, 128 + n / 4096 % 64, 128 + n / 64 % 64, 128 + n % 64]

/-- Function `hexEscapeNonASCII` of `net/http`: every byte from 128 up is
replaced by `%` and its two lower-case hexadecimal digits. -/
def hexEscapeNonASCII (s : String) : String :=
  String.mk (s.toList.flatMap (fun c =>
    if c.toNat < 128 then [c]
    else (utf8Bytes c.toNat).flatMap (fun b => '%' :: Nat.toDigits 16 b)))

/-- The value `http.Redirect` writes into the `Location` header for the
target `url` of a request whose path is `oldpath`.  A target that parses
with neither scheme nor host is made absolute against the directory of the
request path, its part before the first `?` is cleaned with `path.Clean`
(keeping a trailing slash) and the query is put back.  Bytes outside ASCII
are then percent-escaped. -/
def redirectLocation (lib : Library) (oldpath url : String) : String :=
  hexEscapeNonASCII
    (if lib.parsesRelative url then
      let old := if oldpath = "" then ['/'] else oldpath.toList
      let full :=
        if url.toList.head? = some '/' then url.toList
        else pathSplitDir old ++ url.toList
      let base := full.takeWhile (fun c => c != '?')
      let query := full.dropWhile (fun c => c != '?')
      let cleaned := pathClean base
      let slashed :=
        if base.getLast? = some '/' ∧ cleaned.getLast? ≠ some '/' then cleaned ++ ['/']
        else cleaned
      String.mk (slashed ++ query)
    else url)

/-- True when every character of the string is ASCII. -/
def isASCII (s : String) : Bool :=
  s.toList.all (fun c => c.toNat < 128)

/-! ## Handlers -/

/-- The payload `gin.H{"error": msg}`. -/
def errorPayload (msg : String) : List (String × String) :=
  [("error", msg)]

/-- The payload of line 58:
`gin.H{"short_url": fmt.Sprintf("http://localhost:8080/%s", shortKey)}`. -/
def shortURLPayload (shortKey : String) : List (String × String) :=
  [("short_url", "http://localhost:8080/" ++ shortKey)]

/-- Handler `ShortenURL` (lines 35-59) run without interruption: bind, validate,
generate the key, store the mapping, answer. -/
def ShortenURL (lib : Library) (body : Option String) (m : UrlStore) :
    Response × UrlStore :=
  match BindJSON lib body with
  | none => (⟨StatusBadRequest, errorPayload "Invalid request body", none⟩, m)
  | some url =>
    if !isValidURL lib url then
      (⟨StatusBadRequest, errorPayload "Invalid URL", none⟩, m)
    else
      let shortKey := generateShortKey m
      (⟨StatusOK, shortURLPayload shortKey, none⟩, m.insert shortKey url)

/-- Handler `GetOriginalURL` (lines 61-75) for the request `GET /shortKey`:
look the key up under the read lock; answer 404 when it is missing,
otherwise `c.Redirect(301, originalURL)`, which hands the target to
`http.Redirect`.  The map is returned as it was. -/
def GetOriginalURL (lib : Library) (shortKey : String) (m : UrlStore) :
    Response × UrlStore :=
  match m.lookup shortKey with
  | none => (⟨StatusNotFound, errorPayload "URL not found", none⟩, m)
  | some originalURL =>
    (⟨StatusMovedPermanently, [],
      some (redirectLocation lib ("/" ++ shortKey) originalURL)⟩, m)

/-! ## Requests served one after another -/

/-- A request accepted by the router of `main` (lines 80-82):
`POST /shorten` with a body, or `GET /:shortKey`. -/
inductive Request where
  | shorten (body : Option String)
  | resolve (shortKey : String)

/-- Dispatch of one request to its handler. -/
def handle (lib : Library) : Request → UrlStore → Response × UrlStore
  | .shorten body, m => ShortenURL lib body m
  | .resolve shortKey, m => GetOriginalURL lib shortKey m

/-- Serve a list of requests sequentially, each handler running to completion
before the next starts; returns the responses in order and the final map. -/
def run (lib : Library) : List Request → UrlStore → List Response × UrlStore
  | [], m => ([], m)
  | r :: rs, m =>
    let out := handle lib r m
    let rest := run lib rs out.2
    (out.1 :: rest.1, rest.2)

/-- A map is reachable when some sequential run from the empty map ends in it. -/
def Reachable (lib : Library) (m : UrlStore) : Prop :=
  ∃ trace : List Request, (run lib trace ∅).2 = m

/-- The valid URL a request carries, if any: the value of `url` in the body
of a shorten request, when it passes `isValidURL`.  Resolve requests and
shorten requests whose body has no such value carry none. -/
def carriedURL (lib : Library) : Request → Option String
  | .shorten body => (lib.decodeJSON body).filter (isValidURL lib)
  | .resolve _ => none

/-- The valid URLs carried by the requests of a trace, in order. -/
def carriedURLs (lib : Library) (trace : List Request) : List String :=
  trace.filterMap (carriedURL lib)

/-- The store holds exactly the keys `hex 0, ..., hex (N-1)` for the list
`urls` of length `N`, and key `hex i` maps to the `i`-th URL. -/
def Holds (m : UrlStore) (urls : List String) : Prop :=
  m.entries.length = urls.length ∧
  (∀ k, k ∈ m → ∃ i, i < urls.length ∧ k = sprintfHex i) ∧
  (∀ i, i < urls.length → m.lookup (sprintfHex i) = urls[i]?)

/-! ## `ShortenURL` at lock granularity

`ShortenURL` takes the lock twice: inside `generateShortKey` (lines 23-26)
and around the assignment (lines 54-56).  Between the two another request may
run.  `ShortenState` is the handler's control point, `shortenStep` executes
up to and including the next locked region. -/

/-- Control points of one `ShortenURL` call. -/
inductive ShortenState where
  | entered (body : Option String)
  | keyed (url shortKey : String)
  | answered (r : Response)
  deriving DecidableEq

/-- One atomic step of a `ShortenURL` call.
From `entered`: lines 36-52, ending with the locked read of
`generateShortKey`.  From `keyed`: lines 54-58, the locked assignment and the
answer.  An answered call does nothing more. -/
def shortenStep (lib : Library) : ShortenState → UrlStore → ShortenState × UrlStore
  | .entered body, m =>
    match BindJSON lib body with
    | none => (.answered ⟨StatusBadRequest, errorPayload "Invalid request body", none⟩, m)
    | some url =>
      if !isValidURL lib url then
        (.answered ⟨StatusBadRequest, errorPayload "Invalid URL", none⟩, m)
      else (.keyed url (generateShortKey m), m)
  | .keyed url shortKey, m =>
    (.answered ⟨StatusOK, shortURLPayload shortKey, none⟩, m.insert shortKey url)
  | .answered r, m => (.answered r, m)

/-- Outcome of two interleaved calls: the final control point of each, the
map after the write of call 1, and the final map. -/
structure RaceOutcome where
  first : ShortenState
  second : ShortenState
  afterFirstWrite : UrlStore
  final : UrlStore

/-- The interleaving of two calls in which both read the key before either
writes: step of call 1, step of call 2, step of call 1, step of call 2. -/
def raceTwo (lib : Library) (body1 body2 : Option String) (m : UrlStore) :
    RaceOutcome :=
  let a1 := shortenStep lib (.entered body1) m
  let a2 := shortenStep lib (.entered body2) a1.2
  let b1 := shortenStep lib a1.1 a2.2
  let b2 := shortenStep lib a2.1 b1.2
  ⟨b1.1, b2.1, b1.2, b2.2⟩

/-! ## A concrete library for evaluating examples -/

/-- A byte that `net/url` treats as a control character: below space, or DEL. -/
def isCTLByte (c : Char) : Bool :=
  c.toNat < 32 || c.toNat = 127

/-- The opening stages of `url.ParseRequestURI`: reject control characters
and the empty string, accept `*`, split off the scheme and the query, and
reject a rootless string without scheme (`invalid URI for request`).  The
later stages, which check authority and percent-escapes, are not evaluated
here: a string that reaches them is accepted. -/
def exampleParseRequestURI (s : String) : Bool :=
  let raw := s.toList
  if raw.any isCTLByte then false
  else if raw = [] then false
  else if raw = ['*'] then true
  else
    match getSchemeScan raw raw [] with
    | none => false
    | some (scheme, rest) =>
      let path := rest.takeWhile (fun c => c != '?')
      if path.head? = some '/' then true else !scheme.isEmpty

/-- The opening stages of `url.Parse`, asked whether the result has neither
scheme nor host.  A string with a scheme does not; a string with control
characters, with a colon in its first path segment, or starting with `:` is
an error; a string starting with `//` followed by a non-empty host has a
host.  The later stages, which check authority and percent-escapes, are not
evaluated here: a string that reaches them is taken to parse. -/
def exampleParsesRelative (s : String) : Bool :=
  let raw := s.toList.takeWhile (fun c => c != '#')
  if urlScheme s ≠ "" then false
  else if raw.any isCTLByte then false
  else
    match getSchemeScan raw raw [] with
    | none => false
    | some (_, rest) =>
      let path := rest.takeWhile (fun c => c != '?')
      match path with
      | '/' :: '/' :: after =>
        if after.head? = some '/' then true
        else ((after.takeWhile (fun c => c != '/')).reverse.takeWhile
          (fun c => c != '@')).isEmpty
      | '/' :: _ => true
      | _ => !(path.takeWhile (fun c => c != '/')).contains ':'

/-- Remove the leading characters `pre` from `xs` if `xs` starts with them. -/
def dropLeading : List Char → List Char → Option (List Char)
  | [], xs => some xs
  | _ :: _, [] => none
  | p :: ps, x :: xs => if p = x then dropLeading ps xs else none

/-- White space between JSON tokens. -/
def isJSONSpace (c : Char) : Bool :=
  c = ' ' || c = '\t' || c = '\n' || c = '\r'

/-- The character denoted by a two-character escape of a JSON string. -/
def unescapeJSON (c : Char) : Option Char :=
  if c = '"' then some '"'
  else if c = '\\' then some '\\'
  else if c = '/' then some '/'
  else if c = 'b' then some (Char.ofNat 8)
  else if c = 'f' then some (Char.ofNat 12)
  else if c = 'n' then some '\n'
  else if c = 'r' then some '\r'
  else if c = 't' then some '\t'
  else none

/-- The rest of a JSON string after its opening quote: the characters up to
the closing quote, with two-character escapes resolved, and the text after
the closing quote.  Escapes by code point are outside the fragment read
here. -/
def scanJSONString : List Char → List Char → Option (List Char × List Char)
  | [], _ => none
  | c :: rest, seen =>
    if c = '"' then some (seen.reverse, rest)
    else if c = '\\' then
      match rest with
      | [] => none
      | e :: rest2 =>
        match unescapeJSON e with
        | some d => scanJSONString rest2 (d :: seen)
        | none => none
    else if c.toNat < 32 then none
    else scanJSONString rest (c :: seen)

/-- A member value: a string, `null`, `true`, `false` or a number.  Arrays
and objects as member values are outside the fragment read here. -/
def scanJSONScalar (cs : List Char) : Option (JsonValue × List Char) :=
  match cs with
  | [] => none
  | c :: rest =>
    if c = '"' then
      (scanJSONString rest []).map (fun r => (JsonValue.string (String.mk r.1), r.2))
    else if c = '-' || c.isDigit then
      some (JsonValue.other, cs.dropWhile (fun d => d.isDigit || d = '-' || d = '+'
        || d = '.' || d = 'e' || d = 'E'))
    else
      match dropLeading "null".toList cs with
      | some after => some (JsonValue.null, after)
      | none =>
        match dropLeading "true".toList cs with
        | some after => some (JsonValue.other, after)
        | none =>
          (dropLeading "false".toList cs).map (fun after => (JsonValue.other, after))

/-- The members of an object, from the first member name to the closing
brace; `fuel` bounds the number of members. -/
def scanJSONMembers : Nat → List Char → List (String × JsonValue) →
    Option (List (String × JsonValue) × List Char)
  | 0, _, _ => none
  | fuel + 1, cs, seen =>
    match cs.dropWhile isJSONSpace with
    | '"' :: afterQuote =>
      match scanJSONString afterQuote [] with
      | none => none
      | some (name, afterName) =>
        match afterName.dropWhile isJSONSpace with
        | ':' :: afterColon =>
          match scanJSONScalar (afterColon.dropWhile isJSONSpace) with
          | none => none
          | some (v, afterValue) =>
            match afterValue.dropWhile isJSONSpace with
            | ',' :: more => scanJSONMembers fuel more (seen ++ [(String.mk name, v)])
            | '\x7d' :: after => some (seen ++ [(String.mk name, v)], after)
            | _ => none
        | _ => none
    | _ => none

/-- A reader for the first JSON value of a text, for flat values: an object
whose members are strings, numbers, `true`, `false` or `null`, or one such
scalar on its own.  Arrays and nested objects are reported as malformed. -/
def exampleFirstJSONValue (text : String) : Option (JsonDocument × String) :=
  match text.toList.dropWhile isJSONSpace with
  | '\x7b' :: afterBrace =>
    match afterBrace.dropWhile isJSONSpace with
    | '\x7d' :: after => some (JsonDocument.object [], String.mk after)
    | _ =>
      (scanJSONMembers text.length afterBrace []).map
        (fun r => (JsonDocument.object r.1, String.mk r.2))
  | cs =>
    (scanJSONScalar cs).map (fun r =>
      (match r.1 with
        | JsonValue.null => JsonDocument.null
        | _ => JsonDocument.other, String.mk r.2))

/-- The library used in the worked examples. -/
def exampleLibrary : Library :=
  ⟨exampleParseRequestURI, by decide, exampleFirstJSONValue, exampleParsesRelative,
    fun s h => by
      unfold exampleParsesRelative at h
      by_contra hne
      simp [hne] at h⟩

/-! # Theorems

## Hexadecimal rendering -/

theorem hexDigitValue_digitChar : ∀ d, d < 16 → hexDigitValue (Nat.digitChar d) = d := by
  decide

theorem readHex_append_singleton (cs : List Char) (c : Char) :
    readHex (cs ++ [c]) = 16 * readHex cs + hexDigitValue c := by
  simp [readHex, List.foldl_append]

theorem toDigitsCore_acc (b : Nat) : ∀ (fuel n : Nat) (ds : List Char),
    Nat.toDigitsCore b fuel n ds = Nat.toDigitsCore b fuel n [] ++ ds := by
  intro fuel
  induction fuel with
  | zero => intro n ds; simp [Nat.toDigitsCore]
  | succ fuel ih =>
    intro n ds
    simp only [Nat.toDigitsCore]
    split
    · simp
    · rw [ih (n / b) (Nat.digitChar (n % b) :: ds), ih (n / b) [Nat.digitChar (n % b)]]
      simp

theorem readHex_toDigitsCore : ∀ (fuel n : Nat), n < fuel →
    readHex (Nat.toDigitsCore 16 fuel n []) = n := by
  intro fuel
  induction fuel with
  | zero => intro n h; omega
  | succ fuel ih =>
    intro n h
    simp only [Nat.toDigitsCore]
    split
    · rename_i h0
      have hn : n < 16 := by omega
      have hmod : n % 16 = n := Nat.mod_eq_of_lt hn
      simp [readHex, hmod, hexDigitValue_digitChar n hn]
    · rename_i h0
      rw [toDigitsCore_acc, readHex_append_singleton, ih (n / 16) (by omega),
        hexDigitValue_digitChar (n % 16) (Nat.mod_lt _ (by decide))]
      omega

theorem readHex_toDigits (n : Nat) : readHex (Nat.toDigits 16 n) = n :=
  readHex_toDigitsCore (n + 1) n (Nat.lt_succ_self n)

theorem sprintfHex_injective : Function.Injective sprintfHex := by
  intro a b h
  have h1 : Nat.toDigits 16 a = Nat.toDigits 16 b := congrArg String.data h
  have h2 := congrArg readHex h1
  simpa [readHex_toDigits] using h2

theorem digitChar_mem_lowerHexDigits : ∀ d, d < 16 → Nat.digitChar d ∈ lowerHexDigits := by
  decide

theorem digitChar_ne_zero : ∀ d, d < 16 → 0 < d → Nat.digitChar d ≠ '0' := by
  decide

theorem toDigitsCore_lowerHex : ∀ (fuel n : Nat) (ds : List Char),
    (∀ c ∈ ds, c ∈ lowerHexDigits) →
    ∀ c ∈ Nat.toDigitsCore 16 fuel n ds, c ∈ lowerHexDigits := by
  intro fuel
  induction fuel with
  | zero => intro n ds hds c hc; exact hds c (by simpa [Nat.toDigitsCore] using hc)
  | succ fuel ih =>
    intro n ds hds c hc
    have hd : ∀ x ∈ Nat.digitChar (n % 16) :: ds, x ∈ lowerHexDigits := by
      intro x hx
      rcases List.mem_cons.mp hx with rfl | hx
      · exact digitChar_mem_lowerHexDigits _ (Nat.mod_lt _ (by decide))
      · exact hds x hx
    simp only [Nat.toDigitsCore] at hc
    split at hc
    · exact hd c hc
    · exact ih (n / 16) _ hd c hc

theorem toDigitsCore_head : ∀ (fuel n : Nat), n < fuel → 0 < n →
    (Nat.toDigitsCore 16 fuel n []).head? ≠ some '0' := by
  intro fuel
  induction fuel with
  | zero => intro n h; omega
  | succ fuel ih =>
    intro n h hpos
    simp only [Nat.toDigitsCore]
    split
    · rename_i h0
      have hn : n < 16 := by omega
      have hmod : n % 16 = n := Nat.mod_eq_of_lt hn
      simpa [hmod] using digitChar_ne_zero n hn hpos
    · rename_i h0
      have hq : 0 < n / 16 := Nat.pos_of_ne_zero h0
      have hlt : n / 16 < fuel := by omega
      rw [toDigitsCore_acc]
      have hne : Nat.toDigitsCore 16 fuel (n / 16) [] ≠ [] := by
        intro hnil
        have := readHex_toDigitsCore fuel (n / 16) hlt
        rw [hnil] at this
        simp [readHex] at this
        omega
      cases hcs : Nat.toDigitsCore 16 fuel (n / 16) [] with
      | nil => exact absurd hcs hne
      | cons x xs =>
        have := ih (n / 16) hlt hq
        rw [hcs] at this
        simpa using this

/-- The rendering uses only the digits `0-9a-f`, reads back as the number it
renders, and has no leading zero unless the number is zero. -/
theorem sprintfHex_spec (n : Nat) :
    (∀ c ∈ (sprintfHex n).toList, c ∈ lowerHexDigits) ∧
    readHex (sprintfHex n).toList = n ∧
    (n ≠ 0 → (sprintfHex n).toList.head? ≠ some '0') := by
  refine ⟨?_, ?_, ?_⟩
  · intro c hc
    exact toDigitsCore_lowerHex (n + 1) n [] (by simp) c hc
  · exact readHex_toDigits n
  · intro hn
    exact toDigitsCore_head (n + 1) n (Nat.lt_succ_self n) (Nat.pos_of_ne_zero hn)

/-! ## Basic facts about the handlers -/

theorem BindJSON_of_valid (lib : Library) (body : Option String) (u : String)
    (hbody : lib.decodeJSON body = some u) (hvalid : isValidURL lib u = true) :
    BindJSON lib body = some u := by
  have hne : u ≠ "" := by
    intro h
    rw [h, isValidURL, lib.parse_empty] at hvalid
    exact Bool.false_ne_true hvalid
  simp [BindJSON, hbody, hne]

theorem ShortenURL_of_valid (lib : Library) (m : UrlStore) (body : Option String)
    (u : String) (hbody : lib.decodeJSON body = some u)
    (hvalid : isValidURL lib u = true) :
    ShortenURL lib body m =
      (⟨StatusOK, shortURLPayload (generateShortKey m), none⟩,
        m.insert (generateShortKey m) u) := by
  simp [ShortenURL, BindJSON_of_valid lib body u hbody hvalid, hvalid]

theorem shortenStep_entered_valid (lib : Library) (m : UrlStore)
    (body : Option String) (u : String) (hbody : lib.decodeJSON body = some u)
    (hvalid : isValidURL lib u = true) :
    shortenStep lib (.entered body) m = (.keyed u (generateShortKey m), m) := by
  simp [shortenStep, BindJSON_of_valid lib body u hbody hvalid, hvalid]

/-- Running the two steps of a call back to back is `ShortenURL`. -/
theorem shortenStep_twice (lib : Library) (m : UrlStore) (body : Option String) :
    shortenStep lib (shortenStep lib (.entered body) m).1
        (shortenStep lib (.entered body) m).2
      = (.answered (ShortenURL lib body m).1, (ShortenURL lib body m).2) := by
  unfold ShortenURL
  cases hb : BindJSON lib body with
  | none => simp [shortenStep, hb]
  | some v =>
    cases hv : isValidURL lib v with
    | false => simp [shortenStep, hb, hv]
    | true => simp [shortenStep, hb, hv]

theorem carriedURL_shorten_some (lib : Library) (body : Option String) (u : String)
    (h : carriedURL lib (.shorten body) = some u) (m : UrlStore) :
    ShortenURL lib body m =
      (⟨StatusOK, shortURLPayload (generateShortKey m), none⟩,
        m.insert (generateShortKey m) u) := by
  simp only [carriedURL] at h
  cases hb : lib.decodeJSON body with
  | none => simp [hb] at h
  | some v =>
    rw [hb] at h
    cases hv : isValidURL lib v with
    | false => simp [Option.filter, hv] at h
    | true =>
      have hu : v = u := by simpa [Option.filter, hv] using h
      subst hu
      exact ShortenURL_of_valid lib m body v hb hv

theorem carriedURL_shorten_none (lib : Library) (body : Option String)
    (h : carriedURL lib (.shorten body) = none) (m : UrlStore) :
    (ShortenURL lib body m).1.status = StatusBadRequest ∧ (ShortenURL lib body m).2 = m := by
  simp only [carriedURL] at h
  cases hb : lib.decodeJSON body with
  | none => simp [ShortenURL, BindJSON, hb]
  | some v =>
    rw [hb] at h
    cases hv : isValidURL lib v with
    | false =>
      by_cases hv0 : v = ""
      · simp [ShortenURL, BindJSON, hb, hv0]
      · simp [ShortenURL, BindJSON, hb, hv0, hv]
    | true => simp [Option.filter, hv] at h

theorem carriedURL_isSome_iff (lib : Library) (r : Request) (m : UrlStore) :
    decide ((handle lib r m).1.status = 200) = (carriedURL lib r).isSome := by
  cases r with
  | resolve k =>
    have hs : ¬ (GetOriginalURL lib k m).1.status = 200 := by
      unfold GetOriginalURL
      split <;> simp [StatusNotFound, StatusMovedPermanently]
    simp [handle, carriedURL, hs]
  | shorten body =>
    cases ha : carriedURL lib (.shorten body) with
    | none =>
      have hs := (carriedURL_shorten_none lib body ha m).1
      simp [handle, hs, StatusBadRequest]
    | some u =>
      simp [handle, carriedURL_shorten_some lib body u ha m, StatusOK]

theorem GetOriginalURL_snd (lib : Library) (shortKey : String) (m : UrlStore) :
    (GetOriginalURL lib shortKey m).2 = m := by
  unfold GetOriginalURL
  split <;> rfl

theorem GetOriginalURL_status (lib : Library) (shortKey : String) (m : UrlStore) :
    (GetOriginalURL lib shortKey m).1.status ≠ StatusOK := by
  unfold GetOriginalURL
  split <;> simp [StatusOK, StatusNotFound, StatusMovedPermanently]

/-! ## Binding and the redirect target -/

theorem hexEscape_chars_of_ascii : ∀ (cs : List Char), cs.all (fun c => c.toNat < 128) = true →
    cs.flatMap (fun c =>
      if c.toNat < 128 then [c]
      else (utf8Bytes c.toNat).flatMap (fun b => '%' :: Nat.toDigits 16 b)) = cs := by
  intro cs
  induction cs with
  | nil => intro _; rfl
  | cons c rest ih =>
    intro h
    simp only [List.all_cons, Bool.and_eq_true, decide_eq_true_eq] at h
    simp only [List.flatMap_cons, h.1, if_true, ih h.2, List.singleton_append]

theorem hexEscapeNonASCII_of_isASCII (s : String) (h : isASCII s = true) :
    hexEscapeNonASCII s = s := by
  unfold hexEscapeNonASCII
  rw [hexEscape_chars_of_ascii s.toList h]
  rfl

/-- A target that is ASCII and starts with a scheme is written to the
`Location` header as it is. -/
theorem redirectLocation_of_scheme (lib : Library) (oldpath url : String)
    (hscheme : urlScheme url ≠ "") (hascii : isASCII url = true) :
    redirectLocation lib oldpath url = url := by
  have hrel : lib.parsesRelative url = false := by
    cases hp : lib.parsesRelative url with
    | false => rfl
    | true => exact absurd (lib.relative_no_scheme url hp) hscheme
  simp [redirectLocation, hrel, hexEscapeNonASCII_of_isASCII url hascii]

/-! ## The invariant of sequential runs -/

theorem Holds_empty : Holds ∅ [] := by
  refine ⟨rfl, ?_, ?_⟩
  · intro k hk
    exact absurd hk (AList.not_mem_empty k)
  · intro i hi
    simp at hi

theorem Holds.fresh {m : UrlStore} {urls : List String} (h : Holds m urls) :
    generateShortKey m ∉ m := by
  intro hmem
  obtain ⟨i, hi, hk⟩ := h.2.1 _ hmem
  have : m.entries.length = i := sprintfHex_injective hk
  have := h.1
  omega

theorem Holds.after_insert {m : UrlStore} {urls : List String} (h : Holds m urls) (u : String) :
    Holds (m.insert (generateShortKey m) u) (urls ++ [u]) := by
  have hfresh := h.fresh
  have hlen : (m.insert (generateShortKey m) u).entries.length = urls.length + 1 := by
    rw [AList.insert_entries_of_neg hfresh, List.length_cons, h.1]
  have hkey : generateShortKey m = sprintfHex urls.length := by
    rw [generateShortKey, h.1]
  refine ⟨by simpa using hlen, ?_, ?_⟩
  · intro k hk
    rcases (AList.mem_insert m).mp hk with rfl | hk
    · exact ⟨urls.length, by simp, hkey⟩
    · obtain ⟨i, hi, hki⟩ := h.2.1 k hk
      exact ⟨i, by simp; omega, hki⟩
  · intro i hi
    have hi2 : i < urls.length + 1 := by simpa using hi
    by_cases hlast : i = urls.length
    · subst hlast
      rw [← hkey, AList.lookup_insert]
      simp
    · have hlt : i < urls.length := by omega
      have hne : sprintfHex i ≠ generateShortKey m := by
        rw [hkey]
        intro he
        exact hlast (sprintfHex_injective he)
      rw [AList.lookup_insert_ne hne, h.2.2 i hlt, List.getElem?_append_left hlt]

theorem Holds.after_handle {m : UrlStore} {urls : List String} (h : Holds m urls)
    (lib : Library) (r : Request) :
    Holds (handle lib r m).2 (urls ++ (carriedURL lib r).toList) := by
  cases r with
  | resolve k => simpa [handle, carriedURL, GetOriginalURL_snd] using h
  | shorten body =>
    cases ha : carriedURL lib (.shorten body) with
    | none =>
      simpa [handle, (carriedURL_shorten_none lib body ha m).2] using h
    | some u =>
      simpa [handle, carriedURL_shorten_some lib body u ha m] using h.after_insert u

theorem Holds.keeps_lookup {m : UrlStore} {urls : List String} (h : Holds m urls)
    (lib : Library) (r : Request) (k t : String) (hk : m.lookup k = some t) :
    (handle lib r m).2.lookup k = some t := by
  cases r with
  | resolve key => simpa [handle, GetOriginalURL_snd] using hk
  | shorten body =>
    cases ha : carriedURL lib (.shorten body) with
    | none => simpa [handle, (carriedURL_shorten_none lib body ha m).2] using hk
    | some u =>
      have hmem : k ∈ m := AList.lookup_isSome.mp (by simp [hk])
      have hne : k ≠ generateShortKey m := by
        intro he
        exact h.fresh (he ▸ hmem)
      simpa [handle, carriedURL_shorten_some lib body u ha m,
        AList.lookup_insert_ne hne] using hk

theorem Holds.after_run (lib : Library) : ∀ (trace : List Request) {m : UrlStore}
    {urls : List String}, Holds m urls →
    Holds (run lib trace m).2 (urls ++ carriedURLs lib trace) := by
  intro trace
  induction trace with
  | nil => intro m urls h; simpa [run, carriedURLs] using h
  | cons r rs ih =>
    intro m urls h
    have h1 := ih (h.after_handle lib r)
    cases ha : carriedURL lib r with
    | none => simpa [run, carriedURLs, List.filterMap_cons, ha] using h1
    | some u => simpa [run, carriedURLs, List.filterMap_cons, ha] using h1

/-- The payloads of the 200 answers of a run that starts in a store tracked
by `urls` carry the keys `hex urls.length`, `hex (urls.length + 1)`, ... -/
theorem run_payloads (lib : Library) : ∀ (trace : List Request) {m : UrlStore}
    {urls : List String}, Holds m urls →
    ((run lib trace m).1.filter (fun r => decide (r.status = 200))).map Response.json
      = (List.range' urls.length (carriedURLs lib trace).length).map
          (fun i => [("short_url", "http://localhost:8080/" ++ sprintfHex i)]) := by
  intro trace
  induction trace with
  | nil => intro m urls h; simp [run, carriedURLs]
  | cons r rs ih =>
    intro m urls h
    have h1 := ih (h.after_handle lib r)
    cases r with
    | resolve k =>
      have hs : ¬ (GetOriginalURL lib k m).1.status = 200 := GetOriginalURL_status lib k m
      simpa [run, handle, carriedURLs, List.filterMap_cons,
        carriedURL, hs] using h1
    | shorten body =>
      cases ha : carriedURL lib (.shorten body) with
      | none =>
        have hs := (carriedURL_shorten_none lib body ha m).1
        have hs2 : ¬ (ShortenURL lib body m).1.status = 200 := by
          rw [hs]; decide
        simpa [run, handle, carriedURLs, List.filterMap_cons,
          ha, hs2] using h1
      | some u =>
        have he := carriedURL_shorten_some lib body u ha m
        have hkey : generateShortKey m = sprintfHex urls.length := by
          rw [generateShortKey, h.1]
        rw [ha] at h1
        simp only [Option.toList, List.length_append, List.length_singleton] at h1
        simp only [run, handle, carriedURLs,
          List.filterMap_cons, ha, he, List.length_cons]
        simp only [handle, he, hkey] at h1
        simp only [carriedURLs] at h1
        simp [StatusOK, shortURLPayload, hkey, List.range'_succ, h1]

/-- In a sequential run exactly the requests carrying a valid URL are
answered 200. -/
theorem run_statuses (lib : Library) : ∀ (trace : List Request) (m : UrlStore),
    (run lib trace m).1.map (fun r => decide (r.status = 200))
      = trace.map (fun r => (carriedURL lib r).isSome) := by
  intro trace
  induction trace with
  | nil => intro m; rfl
  | cons r rs ih =>
    intro m
    simp only [run, List.map_cons, ih, carriedURL_isSome_iff lib r m]

/-! ## Evaluations of the library model -/

/-- Lexical cleaning by `path.Clean` on sample paths. -/
theorem pathClean_examples :
    pathClean "/a/../b".toList = "/b".toList ∧
    pathClean "abc//def//ghi".toList = "abc/def/ghi".toList ∧
    pathClean "abc/./def".toList = "abc/def".toList ∧
    pathClean "abc/def/..".toList = "abc".toList ∧
    pathClean "abc/def/../../..".toList = "..".toList ∧
    pathClean "/abc/def/../../..".toList = "/".toList ∧
    pathClean "../../abc".toList = "../../abc".toList ∧
    pathClean "abc/def/../ghi/../jkl".toList = "abc/jkl".toList ∧
    pathClean "abc/".toList = "abc".toList ∧
    pathClean "/".toList = "/".toList ∧
    pathClean "".toList = ".".toList ∧
    pathClean "/../abc".toList = "/abc".toList := by
  decide

/-- The directory part of a request path, and percent-escaping of bytes
outside ASCII. -/
theorem redirect_parts_examples :
    pathSplitDir "/0".toList = "/".toList ∧
    pathSplitDir "/a/b/c".toList = "/a/b/".toList ∧
    pathSplitDir "abc".toList = [] ∧
    hexEscapeNonASCII "abc" = "abc" ∧
    hexEscapeNonASCII "é" = "%c3%a9" ∧
    hexEscapeNonASCII "a€b" = "a%e2%82%acb" ∧
    redirectLocation exampleLibrary "/0" "" = "/" ∧
    redirectLocation exampleLibrary "/0" "foo/" = "/foo/" ∧
    redirectLocation exampleLibrary "/0" "//example.com/a/../b" = "//example.com/a/../b" := by
  decide

/-- Binding of object members to the field `URL`: names match up to letter
case, the last string wins, `null` leaves the field, a value of another type
is an error, other members are skipped. -/
theorem bindMembers_examples :
    bindMembers [("url", JsonValue.string "a")] "" = some "a" ∧
    bindMembers [("Url", JsonValue.string "a")] "" = some "a" ∧
    bindMembers [("url", JsonValue.string "a"), ("URL", JsonValue.string "b")] "" = some "b" ∧
    bindMembers [("url", JsonValue.string "a"), ("url", JsonValue.null)] "" = some "a" ∧
    bindMembers [("url", JsonValue.other)] "" = none ∧
    bindMembers [("url", JsonValue.other), ("url", JsonValue.string "a")] "" = none ∧
    bindMembers [("link", JsonValue.other), ("urls", JsonValue.string "a")] "" = some "" ∧
    exampleLibrary.decodeJSON none = none ∧
    exampleLibrary.decodeJSON (some "") = none ∧
    exampleLibrary.decodeJSON (some "not json") = none ∧
    exampleLibrary.decodeJSON (some "null") = some "" ∧
    exampleLibrary.decodeJSON (some "\"https://example.com\"") = none ∧
    exampleLibrary.decodeJSON (some "\x7b\"url\":5\x7d") = none ∧
    exampleLibrary.decodeJSON (some " \x7b \"n\" : 1 , \"url\" : \"a/b\" \x7d ") = some "a/b" := by
  decide

/-! ## The claims -/

/-- C1 as stated fails at `u = "/a/../b"`: the string passes `isValidURL`,
the shorten request answers 200 with key `0`, and resolving `0` right after
answers with the `Location` header `/b`, not `u`, because `http.Redirect`
cleans the path of a target without scheme and host.  It also fails at
`u = "https://example.com/é"`, whose header has the non-ASCII bytes
percent-escaped. -/
theorem C1_counterexample :
    isValidURL exampleLibrary "/a/../b" = true ∧
    exampleLibrary.decodeJSON (some "\x7b\"url\":\"/a/../b\"\x7d") = some "/a/../b" ∧
    (ShortenURL exampleLibrary (some "\x7b\"url\":\"/a/../b\"\x7d") ∅).1
        = ⟨200, [("short_url", "http://localhost:8080/0")], none⟩ ∧
    (GetOriginalURL exampleLibrary "0"
        (ShortenURL exampleLibrary (some "\x7b\"url\":\"/a/../b\"\x7d") ∅).2).1.status = 301 ∧
    (GetOriginalURL exampleLibrary "0"
        (ShortenURL exampleLibrary (some "\x7b\"url\":\"/a/../b\"\x7d") ∅).2).1.location
        = some "/b" ∧
    (GetOriginalURL exampleLibrary "0"
        (ShortenURL exampleLibrary (some "\x7b\"url\":\"/a/../b\"\x7d") ∅).2).1.location
        ≠ some "/a/../b" ∧
    isValidURL exampleLibrary "https://example.com/é" = true ∧
    exampleLibrary.decodeJSON (some "\x7b\"url\":\"https://example.com/é\"\x7d")
        = some "https://example.com/é" ∧
    (GetOriginalURL exampleLibrary "0"
        (ShortenURL exampleLibrary
          (some "\x7b\"url\":\"https://example.com/é\"\x7d") ∅).2).1.location
        = some "https://example.com/%c3%a9" := by
  decide

/-- C1 (amended round trip): for every store and every URL `u` that passes
`isValidURL`, a shorten request whose body carries `u` answers 200 with
`short_url = "http://localhost:8080/" ++ k` for some key `k`, and resolving
`k` on the resulting store answers 301 with the `Location` header equal to
`u` as rewritten by `http.Redirect` for the request path `/k`; the header is
exactly `u` whenever `u` is ASCII and starts with a scheme. -/
theorem C1_round_trip (lib : Library) (m : UrlStore) (body : Option String)
    (u : String) (hbody : lib.decodeJSON body = some u)
    (hvalid : isValidURL lib u = true) :
    ∃ k : String,
      (ShortenURL lib body m).1.status = 200 ∧
      (ShortenURL lib body m).1.json = [("short_url", "http://localhost:8080/" ++ k)] ∧
      (GetOriginalURL lib k (ShortenURL lib body m).2).1.status = 301 ∧
      (GetOriginalURL lib k (ShortenURL lib body m).2).1.location
          = some (redirectLocation lib ("/" ++ k) u) ∧
      (urlScheme u ≠ "" → isASCII u = true →
        (GetOriginalURL lib k (ShortenURL lib body m).2).1.location = some u) := by
  refine ⟨generateShortKey m, ?_⟩
  rw [ShortenURL_of_valid lib m body u hbody hvalid]
  refine ⟨rfl, rfl, ?_, ?_, ?_⟩
  · simp [GetOriginalURL, AList.lookup_insert, StatusMovedPermanently]
  · simp [GetOriginalURL, AList.lookup_insert]
  · intro hscheme hascii
    simp [GetOriginalURL, AList.lookup_insert,
      redirectLocation_of_scheme lib _ u hscheme hascii]

/-- Witness of C1 (amended): `https://example.com` on the empty store; the
key is `0` and the header is the URL itself. -/
theorem C1_round_trip_witness :
    exampleLibrary.decodeJSON (some "\x7b\"url\":\"https://example.com\"\x7d")
        = some "https://example.com" ∧
    isValidURL exampleLibrary "https://example.com" = true ∧
    urlScheme "https://example.com" ≠ "" ∧
    isASCII "https://example.com" = true ∧
    (ShortenURL exampleLibrary (some "\x7b\"url\":\"https://example.com\"\x7d") ∅).1.json
        = [("short_url", "http://localhost:8080/0")] ∧
    (GetOriginalURL exampleLibrary "0"
        (ShortenURL exampleLibrary (some "\x7b\"url\":\"https://example.com\"\x7d") ∅).2).1.location
        = some "https://example.com" ∧
    ∃ k : String,
      (ShortenURL exampleLibrary (some "\x7b\"url\":\"https://example.com\"\x7d") ∅).1.status
          = 200 ∧
      (ShortenURL exampleLibrary (some "\x7b\"url\":\"https://example.com\"\x7d") ∅).1.json
          = [("short_url", "http://localhost:8080/" ++ k)] ∧
      (GetOriginalURL exampleLibrary k
          (ShortenURL exampleLibrary (some "\x7b\"url\":\"https://example.com\"\x7d") ∅).2).1.status
          = 301 ∧
      (GetOriginalURL exampleLibrary k
          (ShortenURL exampleLibrary (some "\x7b\"url\":\"https://example.com\"\x7d") ∅).2).1.location
          = some "https://example.com" :=
  ⟨by decide, by decide, by decide, by decide, by decide, by decide,
    (C1_round_trip exampleLibrary ∅ (some "\x7b\"url\":\"https://example.com\"\x7d")
      "https://example.com" (by decide) (by decide)).imp
      (fun _ h => ⟨h.1, h.2.1, h.2.2.1, h.2.2.2.2 (by decide) (by decide)⟩)⟩

/-- C3 as stated fails at the empty string: `""` does not pass `isValidURL`,
the body `{"url":""}` has the field present with that value, and the answer
carries the payload `Invalid request body`, not `Invalid URL`, because the
`required` check of the binding rejects the empty value first. -/
theorem C3_counterexample :
    isValidURL exampleLibrary "" = false ∧
    exampleLibrary.decodeJSON (some "\x7b\"url\":\"\"\x7d") = some "" ∧
    (ShortenURL exampleLibrary (some "\x7b\"url\":\"\"\x7d") ∅).1.json
        = [("error", "Invalid request body")] ∧
    (ShortenURL exampleLibrary (some "\x7b\"url\":\"\"\x7d") ∅).1.json
        ≠ [("error", "Invalid URL")] := by
  decide

/-- C3 (amended): for every store and every non-empty string `s` that fails
`isValidURL`, a shorten request whose body carries `url = s` answers 400 with
`{"error":"Invalid URL"}`, which differs from the malformed-body payload, and
returns the store unchanged. -/
theorem C3_invalid_url (lib : Library) (m : UrlStore) (body : Option String)
    (s : String) (hbody : lib.decodeJSON body = some s) (hs : s ≠ "")
    (hinvalid : isValidURL lib s = false) :
    (ShortenURL lib body m).1.status = 400 ∧
    (ShortenURL lib body m).1.json = [("error", "Invalid URL")] ∧
    (ShortenURL lib body m).1.json ≠ [("error", "Invalid request body")] ∧
    (ShortenURL lib body m).1.location = none ∧
    (ShortenURL lib body m).2 = m := by
  have hb : BindJSON lib body = some s := by simp [BindJSON, hbody, hs]
  simp [ShortenURL, hb, hinvalid, StatusBadRequest, errorPayload]

/-- Witness of C3 (amended): `not a url` on the empty store. -/
theorem C3_invalid_url_witness :
    exampleLibrary.decodeJSON (some "\x7b\"url\":\"not a url\"\x7d") = some "not a url" ∧
    "not a url" ≠ "" ∧
    isValidURL exampleLibrary "not a url" = false ∧
    (ShortenURL exampleLibrary (some "\x7b\"url\":\"not a url\"\x7d") ∅).1.status = 400 ∧
    (ShortenURL exampleLibrary (some "\x7b\"url\":\"not a url\"\x7d") ∅).1.json
        = [("error", "Invalid URL")] ∧
    (ShortenURL exampleLibrary (some "\x7b\"url\":\"not a url\"\x7d") ∅).1.json
        ≠ [("error", "Invalid request body")] ∧
    (ShortenURL exampleLibrary (some "\x7b\"url\":\"not a url\"\x7d") ∅).1.location = none ∧
    (ShortenURL exampleLibrary (some "\x7b\"url\":\"not a url\"\x7d") ∅).2 = ∅ :=
  ⟨by decide, by decide, by decide,
    C3_invalid_url exampleLibrary ∅ (some "\x7b\"url\":\"not a url\"\x7d") "not a url"
      (by decide) (by decide) (by decide)⟩

/-- C4: for every store and every key that is not a key of the store,
`GetOriginalURL` answers 404 with `{"error":"URL not found"}`, sets no
redirect, and returns the store unchanged. -/
theorem C4_not_found (lib : Library) (m : UrlStore) (shortKey : String)
    (h : shortKey ∉ m) :
    (GetOriginalURL lib shortKey m).1.status = 404 ∧
    (GetOriginalURL lib shortKey m).1.json = [("error", "URL not found")] ∧
    (GetOriginalURL lib shortKey m).1.location = none ∧
    (GetOriginalURL lib shortKey m).2 = m := by
  have hl : m.lookup shortKey = none := AList.lookup_eq_none.mpr h
  simp [GetOriginalURL, hl, StatusNotFound, errorPayload]

/-- Witness of C4: the key `nonexistent` on the empty store. -/
theorem C4_not_found_witness :
    "nonexistent" ∉ (∅ : UrlStore) ∧
    (GetOriginalURL exampleLibrary "nonexistent" ∅).1.status = 404 ∧
    (GetOriginalURL exampleLibrary "nonexistent" ∅).1.json
        = [("error", "URL not found")] ∧
    (GetOriginalURL exampleLibrary "nonexistent" ∅).1.location = none ∧
    (GetOriginalURL exampleLibrary "nonexistent" ∅).2 = ∅ :=
  ⟨AList.not_mem_empty _,
    C4_not_found exampleLibrary ∅ "nonexistent" (AList.not_mem_empty _)⟩

/-- C5 as stated fails on the store `{"0" -> "foo"}`: resolving `0` answers
301 with the `Location` header `/foo`, not `foo`, because `http.Redirect`
makes a target without scheme and host absolute against the request path.
Likewise the target `/x/../y/?a=b` gives the header `/y/?a=b`, and the
target `https://example.com/é` gives `https://example.com/%c3%a9`. -/
theorem C5_counterexample :
    (AList.singleton "0" "foo" : UrlStore).lookup "0" = some "foo" ∧
    (GetOriginalURL exampleLibrary "0" (AList.singleton "0" "foo")).1.status = 301 ∧
    (GetOriginalURL exampleLibrary "0" (AList.singleton "0" "foo")).1.location
        = some "/foo" ∧
    (GetOriginalURL exampleLibrary "0" (AList.singleton "0" "foo")).1.location
        ≠ some "foo" ∧
    (GetOriginalURL exampleLibrary "0" (AList.singleton "0" "/x/../y/?a=b")).1.location
        = some "/y/?a=b" ∧
    (GetOriginalURL exampleLibrary "0"
        (AList.singleton "0" "https://example.com/é")).1.location
        = some "https://example.com/%c3%a9" := by
  decide

/-- C5 (amended): for every store and every key present in it with target
`t`, `GetOriginalURL` answers 301 and returns the store unchanged; the
`Location` header is `t` as rewritten by `http.Redirect` for the request
path `/key`, and it is exactly `t` whenever `t` is ASCII and starts with a
scheme. -/
theorem C5_redirect (lib : Library) (m : UrlStore) (shortKey t : String)
    (h : m.lookup shortKey = some t) :
    (GetOriginalURL lib shortKey m).1.status = 301 ∧
    (GetOriginalURL lib shortKey m).1.location
        = some (redirectLocation lib ("/" ++ shortKey) t) ∧
    (urlScheme t ≠ "" → isASCII t = true →
      (GetOriginalURL lib shortKey m).1.location = some t) ∧
    (GetOriginalURL lib shortKey m).2 = m := by
  refine ⟨?_, ?_, ?_, ?_⟩
  · simp [GetOriginalURL, h, StatusMovedPermanently]
  · simp [GetOriginalURL, h]
  · intro hscheme hascii
    simp [GetOriginalURL, h, redirectLocation_of_scheme lib _ t hscheme hascii]
  · simp [GetOriginalURL, h]

/-- Witness of C5 (the setting of `TestRedirectURL`): the store
`{"0" -> "https://example.com"}` and the key `0`. -/
theorem C5_redirect_witness :
    (AList.singleton "0" "https://example.com" : UrlStore).lookup "0"
        = some "https://example.com" ∧
    urlScheme "https://example.com" ≠ "" ∧
    isASCII "https://example.com" = true ∧
    (GetOriginalURL exampleLibrary "0"
        (AList.singleton "0" "https://example.com")).1.status = 301 ∧
    (GetOriginalURL exampleLibrary "0"
        (AList.singleton "0" "https://example.com")).1.location
        = some "https://example.com" ∧
    (GetOriginalURL exampleLibrary "0" (AList.singleton "0" "https://example.com")).2
        = AList.singleton "0" "https://example.com" :=
  ⟨by decide, by decide, by decide,
    (C5_redirect exampleLibrary (AList.singleton "0" "https://example.com") "0"
      "https://example.com" (by decide)).1,
    (C5_redirect exampleLibrary (AList.singleton "0" "https://example.com") "0"
      "https://example.com" (by decide)).2.2.1 (by decide) (by decide),
    (C5_redirect exampleLibrary (AList.singleton "0" "https://example.com") "0"
      "https://example.com" (by decide)).2.2.2⟩

/-- C6: for every store holding `n` entries and every URL `u` that passes
validation, a shorten request answers 200 with `short_url` equal to
`"http://localhost:8080/"` followed by the hexadecimal rendering of `n`, and
afterwards the store maps that key to `u`.  The rendering uses only the
lower-case digits `0-9a-f`, reads back as `n`, has no leading zero unless
`n = 0`; `0` gives `"0"` and `16` gives `"10"`. -/
theorem C6_shorten_key (lib : Library) (m : UrlStore) (body : Option String)
    (u : String) (hbody : lib.decodeJSON body = some u)
    (hvalid : isValidURL lib u = true) :
    (ShortenURL lib body m).1.status = 200 ∧
    (ShortenURL lib body m).1.json
        = [("short_url", "http://localhost:8080/" ++ sprintfHex m.entries.length)] ∧
    (ShortenURL lib body m).2.lookup (sprintfHex m.entries.length) = some u ∧
    (∀ c ∈ (sprintfHex m.entries.length).toList, c ∈ "0123456789abcdef".toList) ∧
    readHex (sprintfHex m.entries.length).toList = m.entries.length ∧
    (m.entries.length ≠ 0 → (sprintfHex m.entries.length).toList.head? ≠ some '0') ∧
    sprintfHex 0 = "0" ∧ sprintfHex 16 = "10" := by
  rw [ShortenURL_of_valid lib m body u hbody hvalid]
  refine ⟨rfl, rfl, ?_, (sprintfHex_spec _).1, (sprintfHex_spec _).2.1,
    (sprintfHex_spec _).2.2, by decide, by decide⟩
  simp [generateShortKey, AList.lookup_insert]

/-- Witness of C6 (scenario 1, `TestShortenURL`): `https://example.com` on
the empty store gives 200 and `http://localhost:8080/0`. -/
theorem C6_shorten_key_witness :
    exampleLibrary.decodeJSON (some "\x7b\"url\":\"https://example.com\"\x7d")
        = some "https://example.com" ∧
    isValidURL exampleLibrary "https://example.com" = true ∧
    (ShortenURL exampleLibrary (some "\x7b\"url\":\"https://example.com\"\x7d") ∅).1
        = ⟨200, [("short_url", "http://localhost:8080/0")], none⟩ ∧
    (ShortenURL exampleLibrary (some "\x7b\"url\":\"https://example.com\"\x7d") ∅).2.lookup
        (sprintfHex (∅ : UrlStore).entries.length) = some "https://example.com" :=
  ⟨by decide, by decide, by decide,
    (C6_shorten_key exampleLibrary ∅ (some "\x7b\"url\":\"https://example.com\"\x7d")
      "https://example.com" (by decide) (by decide)).2.2.1⟩

/-- C7: take any list of requests served one after another on the empty
store, and let `urls` be the valid URLs carried by its shorten requests, in
order, `N` of them (resolve requests and shorten requests without a valid
URL may occur anywhere in between).  Then exactly the requests carrying a
valid URL are answered 200; these answers carry, in order, the keys
`hex 0, hex 1, ..., hex (N-1)`, which are pairwise distinct and start
`0, 1, ..., 9, a, ..., f, 10`; the final store has exactly `N` entries and
maps the `i`-th key to the `i`-th URL. -/
theorem C7_sequential_keys (lib : Library) (trace : List Request)
    (urls : List String) (hurls : trace.filterMap (carriedURL lib) = urls) :
    (∀ u ∈ urls, isValidURL lib u = true) ∧
    (run lib trace ∅).1.map (fun r => decide (r.status = 200))
      = trace.map (fun r => (carriedURL lib r).isSome) ∧
    ((run lib trace ∅).1.filter (fun r => decide (r.status = 200))).map Response.json
      = (List.range urls.length).map
          (fun i => [("short_url", "http://localhost:8080/" ++ sprintfHex i)]) ∧
    ((List.range urls.length).map sprintfHex).Nodup ∧
    (List.range 17).map sprintfHex
      = ["0", "1", "2", "3", "4", "5", "6", "7", "8", "9", "a", "b", "c", "d", "e", "f", "10"] ∧
    (run lib trace ∅).2.entries.length = urls.length ∧
    (∀ i, i < urls.length → (run lib trace ∅).2.lookup (sprintfHex i) = urls[i]?) := by
  subst hurls
  have hinv := Holds.after_run lib trace Holds_empty
  have hpay := run_payloads lib trace Holds_empty
  simp only [List.nil_append, List.length_nil, carriedURLs] at hinv hpay
  refine ⟨?_, run_statuses lib trace ∅, ?_, ?_, by decide, hinv.1, hinv.2.2⟩
  · intro u hu
    obtain ⟨r, -, hr⟩ := List.mem_filterMap.mp hu
    cases r with
    | resolve k => simp [carriedURL] at hr
    | shorten body =>
      simp only [carriedURL] at hr
      cases hb : lib.decodeJSON body with
      | none => simp [hb] at hr
      | some v =>
        rw [hb] at hr
        cases hv : isValidURL lib v with
        | false => simp [Option.filter, hv] at hr
        | true =>
          have : v = u := by simpa [Option.filter, hv] using hr
          rw [← this]
          exact hv
  · rw [List.range_eq_range']
    exact hpay
  · exact (List.nodup_range _).map sprintfHex_injective

/-- Witness of C7: two shorten requests with valid URLs, with a resolve
request and a shorten request with body `{}` in between; the keys are `0`
and `1`. -/
theorem C7_sequential_keys_witness :
    [Request.shorten (some "\x7b\"url\":\"https://example.com\"\x7d"),
      Request.resolve "0",
      Request.shorten (some "\x7b\x7d"),
      Request.shorten (some "\x7b\"url\":\"https://example.org\"\x7d")].filterMap
        (carriedURL exampleLibrary)
      = ["https://example.com", "https://example.org"] ∧
    ((run exampleLibrary
        [Request.shorten (some "\x7b\"url\":\"https://example.com\"\x7d"),
          Request.resolve "0",
          Request.shorten (some "\x7b\x7d"),
          Request.shorten (some "\x7b\"url\":\"https://example.org\"\x7d")] ∅).1.filter
        (fun r => decide (r.status = 200))).map Response.json
      = [[("short_url", "http://localhost:8080/0")],
          [("short_url", "http://localhost:8080/1")]] ∧
    (run exampleLibrary
        [Request.shorten (some "\x7b\"url\":\"https://example.com\"\x7d"),
          Request.resolve "0",
          Request.shorten (some "\x7b\x7d"),
          Request.shorten (some "\x7b\"url\":\"https://example.org\"\x7d")] ∅).2.entries.length
      = 2 :=
  ⟨by decide,
    (C7_sequential_keys exampleLibrary
      [Request.shorten (some "\x7b\"url\":\"https://example.com\"\x7d"),
        Request.resolve "0",
        Request.shorten (some "\x7b\x7d"),
        Request.shorten (some "\x7b\"url\":\"https://example.org\"\x7d")]
      ["https://example.com", "https://example.org"] (by decide)).2.2.1,
    (C7_sequential_keys exampleLibrary
      [Request.shorten (some "\x7b\"url\":\"https://example.com\"\x7d"),
        Request.resolve "0",
        Request.shorten (some "\x7b\x7d"),
        Request.shorten (some "\x7b\"url\":\"https://example.org\"\x7d")]
      ["https://example.com", "https://example.org"] (by decide)).2.2.2.2.2.1⟩

/-- C8: in every store reachable from the empty store by a sequential run, a
shorten call that answers 200 adds exactly one new entry: the generated key
was not present, the number of entries grows by one, the keys afterwards are
the old keys plus the generated one, and every old key keeps its target.
No request of either kind removes or reassigns an existing key. -/
theorem C8_one_new_entry (lib : Library) (m : UrlStore) (hreach : Reachable lib m)
    (body : Option String) (hok : (ShortenURL lib body m).1.status = 200) :
    generateShortKey m ∉ m ∧
    (ShortenURL lib body m).1.json
        = [("short_url", "http://localhost:8080/" ++ generateShortKey m)] ∧
    (ShortenURL lib body m).2.entries.length = m.entries.length + 1 ∧
    (∀ k, k ∈ (ShortenURL lib body m).2 ↔ k = generateShortKey m ∨ k ∈ m) ∧
    (∀ k t, m.lookup k = some t → (ShortenURL lib body m).2.lookup k = some t) ∧
    (∀ r k t, m.lookup k = some t → (handle lib r m).2.lookup k = some t) := by
  obtain ⟨trace, rfl⟩ := hreach
  have hinv := Holds.after_run lib trace Holds_empty
  have hfresh := hinv.fresh
  have hkeep := fun r k t => hinv.keeps_lookup lib r k t
  cases ha : carriedURL lib (.shorten body) with
  | none =>
    have hs := (carriedURL_shorten_none lib body ha (run lib trace ∅).2).1
    rw [hs] at hok
    exact absurd hok (by decide)
  | some u =>
    refine ⟨hfresh, ?_, ?_, ?_, hkeep (.shorten body), hkeep⟩
    · rw [carriedURL_shorten_some lib body u ha]
      rfl
    · rw [carriedURL_shorten_some lib body u ha]
      show (AList.insert _ u _).entries.length = _
      rw [AList.insert_entries_of_neg hfresh, List.length_cons]
    · intro k
      rw [carriedURL_shorten_some lib body u ha]
      exact AList.mem_insert _

/-- Witness of C8: the store reached by shortening `https://example.com`,
then a second shorten request for `https://example.org`. -/
theorem C8_one_new_entry_witness :
    Reachable exampleLibrary
      (run exampleLibrary
        [.shorten (some "\x7b\"url\":\"https://example.com\"\x7d")] ∅).2 ∧
    (ShortenURL exampleLibrary (some "\x7b\"url\":\"https://example.org\"\x7d")
      (run exampleLibrary
        [.shorten (some "\x7b\"url\":\"https://example.com\"\x7d")] ∅).2).1.status = 200 ∧
    (ShortenURL exampleLibrary (some "\x7b\"url\":\"https://example.org\"\x7d")
      (run exampleLibrary
        [.shorten (some "\x7b\"url\":\"https://example.com\"\x7d")] ∅).2).2.entries.length
      = (run exampleLibrary
          [.shorten (some "\x7b\"url\":\"https://example.com\"\x7d")] ∅).2.entries.length + 1 :=
  ⟨⟨_, rfl⟩, by decide,
    (C8_one_new_entry exampleLibrary
      (run exampleLibrary
        [.shorten (some "\x7b\"url\":\"https://example.com\"\x7d")] ∅).2
      ⟨_, rfl⟩ (some "\x7b\"url\":\"https://example.org\"\x7d") (by decide)).2.2.1⟩

/-- C9 as stated fails on the store `{"1" -> "a"}` (one entry, `n = 1`): the
generated key `1` is already present, so after the interleaving the store
still has one entry, not `n + 1 = 2`. -/
theorem C9_counterexample :
    (AList.singleton "1" "a" : UrlStore).entries.length = 1 ∧
    isValidURL exampleLibrary "https://example.com" = true ∧
    isValidURL exampleLibrary "https://example.org" = true ∧
    (raceTwo exampleLibrary (some "\x7b\"url\":\"https://example.com\"\x7d")
      (some "\x7b\"url\":\"https://example.org\"\x7d")
      (AList.singleton "1" "a")).final.entries.length = 1 := by
  decide

/-- C9 (amended): for every store with `n` entries in which `hex n` is not
yet a key, and valid URLs `u1`, `u2`, the interleaving read (call 1), read
(call 2), write (call 1), write (call 2) gives both calls the key `hex n`;
both answer 200 with the same `short_url`; after the first write `hex n` maps
to `u1`; the final store has `n + 1` entries and maps `hex n` to `u2`. -/
theorem C9_race (lib : Library) (m : UrlStore) (body1 body2 : Option String)
    (u1 u2 : String)
    (hb1 : lib.decodeJSON body1 = some u1) (hv1 : isValidURL lib u1 = true)
    (hb2 : lib.decodeJSON body2 = some u2) (hv2 : isValidURL lib u2 = true)
    (hfresh : sprintfHex m.entries.length ∉ m) :
    (raceTwo lib body1 body2 m).first = .answered
      ⟨200, [("short_url", "http://localhost:8080/" ++ sprintfHex m.entries.length)], none⟩ ∧
    (raceTwo lib body1 body2 m).second = .answered
      ⟨200, [("short_url", "http://localhost:8080/" ++ sprintfHex m.entries.length)], none⟩ ∧
    (raceTwo lib body1 body2 m).afterFirstWrite.lookup (sprintfHex m.entries.length)
      = some u1 ∧
    (raceTwo lib body1 body2 m).final.entries.length = m.entries.length + 1 ∧
    (raceTwo lib body1 body2 m).final.lookup (sprintfHex m.entries.length) = some u2 := by
  have e1 := shortenStep_entered_valid lib m body1 u1 hb1 hv1
  have e2 := shortenStep_entered_valid lib m body2 u2 hb2 hv2
  have hraces : raceTwo lib body1 body2 m =
      ⟨.answered ⟨StatusOK, shortURLPayload (generateShortKey m), none⟩,
        .answered ⟨StatusOK, shortURLPayload (generateShortKey m), none⟩,
        m.insert (generateShortKey m) u1,
        (m.insert (generateShortKey m) u1).insert (generateShortKey m) u2⟩ := by
    simp only [raceTwo, e1, e2]
    rfl
  rw [hraces]
  refine ⟨rfl, rfl, AList.lookup_insert _, ?_, AList.lookup_insert _⟩
  show ((m.insert (generateShortKey m) u1).insert (generateShortKey m) u2).entries.length = _
  rw [AList.insert_insert, generateShortKey, AList.insert_entries_of_neg hfresh,
    List.length_cons]

/-- Witness of C9 (amended): two racing requests on the empty store. -/
theorem C9_race_witness :
    sprintfHex (∅ : UrlStore).entries.length ∉ (∅ : UrlStore) ∧
    (raceTwo exampleLibrary (some "\x7b\"url\":\"https://example.com\"\x7d")
      (some "\x7b\"url\":\"https://example.org\"\x7d") ∅).final.entries.length
      = (∅ : UrlStore).entries.length + 1 ∧
    (raceTwo exampleLibrary (some "\x7b\"url\":\"https://example.com\"\x7d")
      (some "\x7b\"url\":\"https://example.org\"\x7d") ∅).final.lookup
      (sprintfHex (∅ : UrlStore).entries.length) = some "https://example.org" :=
  ⟨AList.not_mem_empty _,
    (C9_race exampleLibrary ∅ (some "\x7b\"url\":\"https://example.com\"\x7d")
      (some "\x7b\"url\":\"https://example.org\"\x7d")
      "https://example.com" "https://example.org"
      (by decide) (by decide) (by decide) (by decide) (AList.not_mem_empty _)).2.2.2⟩

/-- C10: on the store with the single entry `"1" -> a`, which no sequential
run of the handlers produces, a shorten request with a valid URL `u`
different from `a` answers 200, the number of entries stays 1, and the key
`1` maps to `u` instead of `a`. -/
theorem C10_overwrite (lib : Library) (body : Option String) (u a : String)
    (hbody : lib.decodeJSON body = some u) (hvalid : isValidURL lib u = true)
    (hne : u ≠ a) :
    (AList.singleton "1" a : UrlStore).lookup "1" = some a ∧
    ¬ Reachable lib (AList.singleton "1" a) ∧
    (ShortenURL lib body (AList.singleton "1" a)).1.status = 200 ∧
    (ShortenURL lib body (AList.singleton "1" a)).1.json
        = [("short_url", "http://localhost:8080/1")] ∧
    (ShortenURL lib body (AList.singleton "1" a)).2.entries.length
        = (AList.singleton "1" a : UrlStore).entries.length ∧
    (ShortenURL lib body (AList.singleton "1" a)).2.lookup "1" = some u ∧
    (ShortenURL lib body (AList.singleton "1" a)).2.lookup "1" ≠ some a := by
  have hkey : generateShortKey (AList.singleton "1" a) = "1" := by
    simp only [generateShortKey, AList.singleton_entries, List.length_singleton]
    decide
  have hlook : (AList.singleton "1" a : UrlStore).lookup "1" = some a := by
    rw [← AList.insert_empty, AList.lookup_insert]
  rw [ShortenURL_of_valid lib _ body u hbody hvalid, hkey]
  refine ⟨hlook, ?_, rfl, rfl, ?_, ?_, ?_⟩
  · rintro ⟨trace, ht⟩
    have hinv := Holds.after_run lib trace Holds_empty
    rw [ht] at hinv
    have hmem : "1" ∈ (AList.singleton "1" a : UrlStore) :=
      AList.lookup_isSome.mp (by simp [hlook])
    obtain ⟨i, hi, hk⟩ := hinv.2.1 "1" hmem
    have hlen := hinv.1
    simp only [AList.singleton_entries, List.length_singleton] at hlen
    have hi0 : i = 0 := by omega
    subst hi0
    exact absurd hk (by decide)
  · rw [← AList.insert_empty, AList.insert_insert]
    simp [AList.insert_empty]
  · exact AList.lookup_insert _
  · rw [AList.lookup_insert]
    intro h
    exact hne (Option.some.inj h)

/-- Witness of C10: `a = "https://example.com"`, `u = "https://example.org"`. -/
theorem C10_overwrite_witness :
    "https://example.org" ≠ "https://example.com" ∧
    (ShortenURL exampleLibrary (some "\x7b\"url\":\"https://example.org\"\x7d")
      (AList.singleton "1" "https://example.com")).1.status = 200 ∧
    (ShortenURL exampleLibrary (some "\x7b\"url\":\"https://example.org\"\x7d")
      (AList.singleton "1" "https://example.com")).2.entries.length
      = (AList.singleton "1" "https://example.com" : UrlStore).entries.length ∧
    (ShortenURL exampleLibrary (some "\x7b\"url\":\"https://example.org\"\x7d")
      (AList.singleton "1" "https://example.com")).2.lookup "1"
      = some "https://example.org" :=
  ⟨by decide,
    (C10_overwrite exampleLibrary (some "\x7b\"url\":\"https://example.org\"\x7d")
      "https://example.org" "https://example.com" (by decide) (by decide)
      (by decide)).2.2.1,
    (C10_overwrite exampleLibrary (some "\x7b\"url\":\"https://example.org\"\x7d")
      "https://example.org" "https://example.com" (by decide) (by decide)
      (by decide)).2.2.2.2.1,
    (C10_overwrite exampleLibrary (some "\x7b\"url\":\"https://example.org\"\x7d")
      "https://example.org" "https://example.com" (by decide) (by decide)
      (by decide)).2.2.2.2.2.1⟩

end UrlShortener
